import Mathlib

/-!
# Verification of the `robuster` enumeration engine

This file embeds the core of the `robuster` reconnaissance tool
(directory, DNS, fuzz and TFTP enumeration modes, plus the shared file
writer) as pure Lean functions and proves or refutes the specification
claims about it.

Modelling conventions:

* Network effects are supplied through an explicit environment (an
  oracle mapping each request to its response), so each mode's `run`
  function becomes a deterministic fold over the candidate list.
* `HashSet`s of status codes / sizes become `List`s used only through
  membership, which preserves their semantics.
* The concurrent `buffer_unordered` fan-out is modelled as a sequential
  fold: all claims treated here concern per-candidate classification,
  counters and output, none of which depend on completion order.
* The time-seeded random token of the wildcard probe is abstracted: the
  environment directly supplies the outcome of the synthetic probe.
-/

/-- HTTP probe outcome as produced by `HttpClient::check_url`:
status code, body size, optional redirect target. -/

structure HttpResp where
  status : Nat
  size : Nat
  redirect : Option String
deriving DecidableEq, Repr

/-- Is an `Except` result an error?  (Mirrors `Result::is_err`.) -/

def isErr {ε α : Type} : Except ε α → Bool
  | .error _ => true
  | .ok _ => false

/-! ## Directory mode (`src/modes/dir.rs`) -/

/-- Configuration slice of `DirArgs` relevant to the enumeration engine. -/

structure DirConfig where
  url : String
  wordlist : List String
  extensions : List String
  add_slash : Bool
  valid_status_codes : List Nat
  blacklist_codes : List Nat
  exclude_lengths : List Nat
  quiet : Bool
  /-- the `--wildcard` force-continue flag -/
  wildcard : Bool
  verbose : Bool
  discover_backup : Bool
deriving Repr

/-- Network oracle for directory mode: the response of `check_url` for
each URL, plus the outcome of the synthetic wildcard probe (whose
random path is abstracted away). -/

structure DirEnv where
  check_url : String → Except String HttpResp
  wildcard_probe : Except String HttpResp

/-- Rust `url.trim_end_matches('/')`: drop every trailing slash. -/

def trim_end_slashes (s : String) : String :=
  String.mk (s.data.reverse.dropWhile (· == '/')).reverse

/-- Helper `ext_multiplier` from `dir.rs`: `1` if no extensions, else `len + 1`. -/

def ext_multiplier (extensions : List String) : Nat :=
  if extensions.isEmpty then 1 else extensions.length + 1

/-- Helper `total_requests` from `dir.rs`:
`wordlist.len() * ext_multiplier * (if add_slash { 2 } else { 1 })`. -/

def total_requests (wordlist extensions : List String) (add_slash : Bool) : Nat :=
  wordlist.length * ext_multiplier extensions * (if add_slash then 2 else 1)

/-- Rust `s.starts_with(c)` for a single character. -/

def starts_with_char (s : String) (c : Char) : Bool :=
  s.data.head? == some c

/-- Rust `s.ends_with(c)` for a single character. -/

def ends_with_char (s : String) (c : Char) : Bool :=
  s.data.getLast? == some c

/-- Path of a word: prefix with `/` unless it already starts with one. -/

def word_path (word : String) : String :=
  if starts_with_char word '/' then word else "/" ++ word

/-- Extension variant of a path: insert a `.` unless the extension
already carries one. -/

def ext_path (path ext : String) : String :=
  if starts_with_char ext '.' then path ++ ext else path ++ "." ++ ext

/-- URLs generated for one word, in generation order: base path, then
the slash-suffixed variant (only when `add_slash` and the path does not
already end in `/`), then one variant per extension. -/

def word_urls (base_url : String) (add_slash : Bool) (extensions : List String)
    (word : String) : List String :=
  let path := word_path word
  [base_url ++ path]
    ++ (if add_slash && !ends_with_char path '/' then [base_url ++ path ++ "/"] else [])
    ++ extensions.map (fun ext => base_url ++ ext_path path ext)

/-- Sequence `urls_to_check` from `dir.rs`: the full candidate URL sequence. -/

def urls_to_check (base_url : String) (wordlist : List String)
    (add_slash : Bool) (extensions : List String) : List String :=
  wordlist.flatMap (word_urls base_url add_slash extensions)

/-- A reported directory-mode match (the `DirResult` record). -/

structure DirMatch where
  url : String
  status : Nat
  size : Nat
  redirect : Option String
deriving DecidableEq, Repr

/-- Shared progress counters (`ProgressTracker`). -/

structure Progress where
  done : Nat := 0
  found : Nat := 0
  errored : Nat := 0
deriving DecidableEq, Repr

/-- Mutable state threaded through the directory-mode main pass. -/

structure DirState where
  progress : Progress := ⟨0, 0, 0⟩
  results : List DirMatch := ([] : List DirMatch)
deriving Repr

/-- The directory-mode filter: status in the allow-set, not in the
deny-set, size not excluded (the `show` condition in `dir.rs`). -/

def dir_show (cfg : DirConfig) (status size : Nat) : Bool :=
  cfg.valid_status_codes.contains status
    && !cfg.blacklist_codes.contains status
    && !cfg.exclude_lengths.contains size

/-- Processing of one URL of the main pass: probe, bump `done`, then
either record a match, drop a filtered response, or bump `errored`. -/

def dir_step (cfg : DirConfig) (env : DirEnv) (s : DirState) (url : String) : DirState :=
  let s := { s with progress := { s.progress with done := s.progress.done + 1 } }
  match env.check_url url with
  | .ok r =>
      if dir_show cfg r.status r.size then
        { s with
            progress := { s.progress with found := s.progress.found + 1 },
            results := s.results ++ [⟨url, r.status, r.size, r.redirect⟩] }
      else s
  | .error _ =>
      { s with progress := { s.progress with errored := s.progress.errored + 1 } }

/-- Backup-file extensions probed by `--discover-backup`. -/

def BACKUP_EXTENSIONS : List String :=
  [".bak", ".backup", ".old", ".orig", ".save", "~", ".swp", ".tmp", ".copy"]

/-- The backup-discovery follow-up pass: for each found URL and each
backup extension, probe the variant and print it when its status is in
the allow-set.  Probe errors are silently ignored; nothing else is
touched. -/

def backup_prints (cfg : DirConfig) (env : DirEnv) (found_urls : List String) :
    List DirMatch :=
  found_urls.flatMap (fun fu =>
    BACKUP_EXTENSIONS.filterMap (fun ext =>
      let backup_url := fu ++ ext
      match env.check_url backup_url with
      | .ok r =>
          if cfg.valid_status_codes.contains r.status then
            some ⟨backup_url, r.status, r.size, r.redirect⟩
          else none
      | .error _ => none))

/-- Synthetic wildcard probe classified interesting, with the
force-continue flag unset (the guarded `Ok((status, _, _))` arm). -/

def dir_wildcard_hit (cfg : DirConfig) (env : DirEnv) : Bool :=
  !cfg.wildcard &&
    (match env.wildcard_probe with
     | .ok r => cfg.valid_status_codes.contains r.status
     | .error _ => false)

/-- Result of a directory-mode run. -/

structure DirRunResult where
  /-- value of the progress total set before execution -/
  total : Nat
  state : DirState
  /-- results printed by the backup-discovery pass (console only) -/
  backup_printed : List DirMatch
  /-- whether the wildcard warning was printed -/
  warned : Bool
  /-- whether the run stopped before the main pass -/
  stopped : Bool
  /-- Flag: `run` returned `Ok(())` (always, config errors aside) -/
  exit_ok : Bool

/-- The directory-mode `run` function: wildcard pre-check (early return
only when the warning fired and quiet is off), main pass, optional
backup pass. -/

def dir_run (cfg : DirConfig) (env : DirEnv) : DirRunResult :=
  let total := total_requests cfg.wordlist cfg.extensions cfg.add_slash
  let base_url := trim_end_slashes cfg.url
  let hit := dir_wildcard_hit cfg env
  if hit && !cfg.quiet then
    { total := total, state := {}, backup_printed := [],
      warned := true, stopped := true, exit_ok := true }
  else
    let urls := urls_to_check base_url cfg.wordlist cfg.add_slash cfg.extensions
    let st := urls.foldl (dir_step cfg env) {}
    let bp := if cfg.discover_backup then
        backup_prints cfg env (st.results.map DirMatch.url)
      else []
    { total := total, state := st, backup_printed := bp,
      warned := hit, stopped := false, exit_ok := true }

/-! ## DNS mode (`src/modes/dns.rs`, `src/core/dns.rs`) -/

/-- A resolved address, kept abstract (stands for `IpAddr`). -/

abbrev Ip := String

/-- Result of `DnsClient::resolve`: at least one of `ips`/`cnames` is
nonempty, otherwise `resolve` returns an error. -/

structure DnsResolved where
  ips : List Ip
  cnames : List String
deriving DecidableEq, Repr

/-- Configuration slice of `DnsArgs`. -/

structure DnsConfig where
  domain : String
  wordlist : List String
  quiet : Bool
  /-- the `--wildcard` force-continue flag -/
  wildcard : Bool
  verbose : Bool
deriving Repr

/-- Network oracle for DNS mode: the `resolve` outcome per
fully-qualified name, and the result of `detect_wildcard` (which is
`some ips` only for a nonempty `ips`, see `core/dns.rs`). -/

structure DnsEnv where
  resolve : String → Except String DnsResolved
  detect_wildcard : Option (List Ip)

/-- Rust `domain.trim_start_matches('.')`: drop every leading dot. -/

def trim_start_dots (s : String) : String :=
  String.mk (s.data.dropWhile (· == '.'))

/-- The fully-qualified candidate name `{word}.{base_domain}`. -/

def dns_subdomain (cfg : DnsConfig) (word : String) : String :=
  word ++ "." ++ trim_start_dots cfg.domain

/-- A reported DNS match (the `DnsResultJson` record). -/

structure DnsMatch where
  subdomain : String
  ips : List Ip
  cnames : List String
deriving DecidableEq, Repr

/-- State threaded through the DNS main pass.  Note `errored` is part
of the shared tracker but the DNS error branch never touches it. -/

structure DnsState where
  progress : Progress := ⟨0, 0, 0⟩
  results : List DnsMatch := ([] : List DnsMatch)
deriving Repr

/-- The wildcard-IP set recorded before the main pass: only when the
force-continue flag is unset, detection fires, and quiet is off; in
every other case the empty set. -/

def dns_wildcard_ips (cfg : DnsConfig) (env : DnsEnv) : List Ip :=
  if !cfg.wildcard then
    match env.detect_wildcard with
    | some ips => if !cfg.quiet then ips else []
    | none => []
  else []

/-- Processing of one word: resolve, bump `done`, then either suppress
a wildcard-equal answer, record a match, or (on error) just echo when
verbose — the errored counter is NOT incremented (faithful to
`dns.rs`). -/

def dns_step (cfg : DnsConfig) (env : DnsEnv) (wildcard_ips : List Ip)
    (s : DnsState) (word : String) : DnsState :=
  let subdomain := dns_subdomain cfg word
  let s := { s with progress := { s.progress with done := s.progress.done + 1 } }
  match env.resolve subdomain with
  | .ok r =>
      let is_wildcard := !wildcard_ips.isEmpty && r.ips.all (wildcard_ips.contains ·)
      if !is_wildcard then
        { s with
            progress := { s.progress with found := s.progress.found + 1 },
            results := s.results ++ [⟨subdomain, r.ips, r.cnames⟩] }
      else s
  | .error _ => s

/-- Result of a DNS-mode run. -/

structure DnsRunResult where
  total : Nat
  state : DnsState
  /-- whether the wildcard warning was printed -/
  warned : Bool
  exit_ok : Bool

/-- The DNS-mode `run` function.  There is no early return on wildcard
detection: the run always proceeds to the main pass. -/

def dns_run (cfg : DnsConfig) (env : DnsEnv) : DnsRunResult :=
  let total := cfg.wordlist.length
  let warned := !cfg.wildcard && env.detect_wildcard.isSome
  let wildcard_ips := dns_wildcard_ips cfg env
  let st := cfg.wordlist.foldl (dns_step cfg env wildcard_ips) {}
  { total := total, state := st, warned := warned, exit_ok := true }

/-! ## Fuzz mode (`src/modes/fuzz.rs`) -/

/-- Is `pat` a prefix of `hay`? -/

def is_prefix_chars : List Char → List Char → Bool
  | _, [] => true
  | [], _ :: _ => false
  | h :: hs, p :: ps => h == p && is_prefix_chars hs ps

/-- Does `hay` contain `pat` as a contiguous run? -/

def has_infix_chars : List Char → List Char → Bool
  | [], pat => pat.isEmpty
  | h :: t, pat => is_prefix_chars (h :: t) pat || has_infix_chars t pat

/-- Does `s` contain the substring `pat`?  Mirrors Rust
`str::contains`. -/

def str_contains (s pat : String) : Bool :=
  has_infix_chars s.data pat.data

/-- The fixed placeholder token. -/

def FUZZ_KEYWORD : String := "FUZZ"

/-- Configuration slice of `FuzzArgs`. -/

structure FuzzConfig where
  url : String
  headers : List String
  data : Option String
  cookies : Option String
  wordlist : List String
  exclude_status : List Nat
  exclude_lengths : List Nat
  filter_string : Option String
  verbose : Bool
deriving Repr

/-- The fuzz-mode configuration check: the FUZZ keyword must appear in
the URL, a header, or the body data. -/

def fuzz_config_ok (cfg : FuzzConfig) : Bool :=
  str_contains cfg.url FUZZ_KEYWORD
    || cfg.headers.any (fun h => str_contains h FUZZ_KEYWORD)
    || (match cfg.data with
        | some d => str_contains d FUZZ_KEYWORD
        | none => false)

/-- The concrete request issued for one payload: URL and body with the
FUZZ keyword substituted. -/

structure FuzzRequest where
  url : String
  data : Option String
deriving DecidableEq, Repr

/-- Substitution of the payload into the template (Rust
`str::replace`). -/

def fuzz_request (cfg : FuzzConfig) (payload : String) : FuzzRequest :=
  { url := cfg.url.replace FUZZ_KEYWORD payload,
    data := cfg.data.map (fun d => d.replace FUZZ_KEYWORD payload) }

/-- Network oracle for fuzz mode: HTTP status and body text for each
substituted request. -/

structure FuzzEnv where
  send : FuzzRequest → Except String (Nat × String)

/-- A reported fuzz match (payload, status, body size). -/

structure FuzzMatch where
  payload : String
  status : Nat
  size : Nat
deriving DecidableEq, Repr

structure FuzzState where
  progress : Progress := ⟨0, 0, 0⟩
  results : List FuzzMatch := ([] : List FuzzMatch)
deriving Repr

/-- The fuzz-mode per-payload filter: status not excluded, size not
excluded, and body free of the filter substring. -/

def fuzz_show (cfg : FuzzConfig) (status : Nat) (body : String) : Bool :=
  !cfg.exclude_status.contains status
    && !cfg.exclude_lengths.contains body.length
    && (match cfg.filter_string with
        | some f => !str_contains body f
        | none => true)

/-- Processing of one payload.  The error branch only echoes when
verbose; the errored counter is NOT incremented (faithful to
`fuzz.rs`). -/

def fuzz_step (cfg : FuzzConfig) (env : FuzzEnv) (s : FuzzState)
    (payload : String) : FuzzState :=
  let s := { s with progress := { s.progress with done := s.progress.done + 1 } }
  match env.send (fuzz_request cfg payload) with
  | .ok (status, body) =>
      if fuzz_show cfg status body then
        { s with
            progress := { s.progress with found := s.progress.found + 1 },
            results := s.results ++ [⟨payload, status, body.length⟩] }
      else s
  | .error _ => s

/-- Result of a fuzz-mode run. -/

structure FuzzRunResult where
  state : FuzzState
  exit_ok : Bool

/-- The fuzz-mode `run` function: aborts (non-zero exit, nothing
probed) when the placeholder is missing, otherwise folds the payload
list. -/

def fuzz_run (cfg : FuzzConfig) (env : FuzzEnv) : FuzzRunResult :=
  if !fuzz_config_ok cfg then
    { state := {}, exit_ok := false }
  else
    { state := cfg.wordlist.foldl (fuzz_step cfg env) {}, exit_ok := true }

/-! ## TFTP mode (`src/modes/tftp.rs`) -/

/-- TFTP opcodes from `tftp.rs`. -/

def TFTP_RRQ : Nat := 1

def TFTP_DATA : Nat := 3

def TFTP_ERROR : Nat := 5

def TFTP_OACK : Nat := 6

/-- The single raw read-request datagram built per candidate filename:
`opcode (2 be bytes) | filename | 0 | "octet" | 0 | "blksize" | 0 |
"512" | 0`. -/

def build_rrq_packet (filename : String) : List Nat :=
  [0, TFTP_RRQ]
    ++ filename.data.map Char.toNat ++ [0]
    ++ "octet".data.map Char.toNat ++ [0]
    ++ "blksize".data.map Char.toNat ++ [0]
    ++ "512".data.map Char.toNat ++ [0]

/-- What the UDP socket yields for one probe: a datagram (its bytes), a
receive timeout, or another socket error. -/

inductive TftpReply where
  | datagram (buf : List Nat)
  | timeout
  | sockErr (msg : String)
deriving DecidableEq, Repr

/-- The classification in `check_tftp_file`: the byte at index 1 of a
datagram of length ≥ 4 decides (data or option-ack ⇒ exists, error ⇒
absent, anything else ⇒ absent); short datagrams and timeouts are
absent; other socket errors are `Err`. -/

def check_tftp_file (reply : TftpReply) : Except String Bool :=
  match reply with
  | .datagram buf =>
      if 4 ≤ buf.length then
        let opcode := buf.getD 1 0
        if opcode = TFTP_DATA || opcode = TFTP_OACK then .ok true
        else if opcode = TFTP_ERROR then .ok false
        else .ok false
      else .ok false
  | .timeout => .ok false
  | .sockErr e => .error e

/-- Configuration slice of `TftpArgs`. -/

structure TftpConfig where
  wordlist : List String
  verbose : Bool
deriving Repr

/-- Oracle: the reply received for each filename's read request. -/

structure TftpEnv where
  reply : String → TftpReply

/-- State of the TFTP pass: counters, found filenames, and the list of
read-request packets put on the wire (one per candidate). -/

structure TftpState where
  progress : Progress := ⟨0, 0, 0⟩
  results : List String := ([] : List String)
  sent : List (List Nat) := ([] : List (List Nat))
deriving Repr

/-- Processing of one filename: bump `done`, send the packet, classify
the reply.  `Ok(false)` (absent, including timeout) touches nothing
else; `Err` only echoes when verbose — `errored` is never incremented
(faithful to `tftp.rs`). -/

def tftp_step (env : TftpEnv) (s : TftpState) (filename : String) : TftpState :=
  let s := { s with
      progress := { s.progress with done := s.progress.done + 1 },
      sent := s.sent ++ [build_rrq_packet filename] }
  match check_tftp_file (env.reply filename) with
  | .ok true =>
      { s with
          progress := { s.progress with found := s.progress.found + 1 },
          results := s.results ++ [filename] }
  | .ok false => s
  | .error _ => s

/-- Result of a TFTP run. -/

structure TftpRunResult where
  total : Nat
  state : TftpState
  exit_ok : Bool

/-- The TFTP `run` function. -/

def tftp_run (cfg : TftpConfig) (env : TftpEnv) : TftpRunResult :=
  { total := cfg.wordlist.length,
    state := cfg.wordlist.foldl (tftp_step env) {},
    exit_ok := true }

/-! ## File writer (`src/output/file.rs`)

The writer is modelled as a pure state machine over the accumulated
file content.  `FileWriter::new` writes the opening bracket in JSON
mode; `write_json` prefixes every record but the first with `,\n`;
`write_line` appends the raw line plus a newline (used by every text
output, and — notably — by TFTP mode even in JSON mode); `finalize`
writes the closing bracket in JSON mode. -/

structure FileWriterState where
  content : String
  json_mode : Bool
  first_entry : Bool
deriving Repr

/-- Constructor `FileWriter::new`: `json_mode` iff the output path's extension is
`json`; the opening bracket goes out immediately. -/

def FileWriter_new (json_mode : Bool) : FileWriterState :=
  { content := if json_mode then "[\n" else "",
    json_mode := json_mode,
    first_entry := true }

/-- Method `write_line`: the serialized text line plus a newline. -/

def write_line (s : FileWriterState) (line : String) : FileWriterState :=
  { s with content := s.content ++ line ++ "\n" }

/-- Method `write_json`: a comma-newline separator before every record except
the first, then the serialized record. -/

def write_json (s : FileWriterState) (record : String) : FileWriterState :=
  { s with
      content := s.content ++ (if s.first_entry then "" else ",\n") ++ record,
      first_entry := false }

/-- Method `finalize`: the closing bracket in JSON mode, else nothing. -/

def finalize (s : FileWriterState) : FileWriterState :=
  if s.json_mode then { s with content := s.content ++ "\n]\n" } else s

/-- Full content of a `.json` output file after a run that routed the
given serialized records through `write_json` and then finalized. -/

def json_file_content (records : List String) : String :=
  (finalize (records.foldl write_json (FileWriter_new true))).content

/-- Full content of a `.json` output file written by TFTP mode, which
routes every found filename through `write_line` instead. -/

def tftp_json_file_content (found : List String) : String :=
  (finalize (found.foldl write_line (FileWriter_new true))).content

/-! ## A JSON syntax checker

To state that a produced file "parses as a syntactically valid JSON
array", we run a pushdown machine over its characters.  The machine
follows the JSON grammar; it is permissive inside number literals and
string escapes (it accepts a superset there), and exact on the
bracket/comma/colon structure, which is what the writer-framing claims
are about. -/

/-- Stack frames: an open array or an open object. -/

inductive JFrame where
  | arr
  | obj
deriving DecidableEq, Repr

/-- Machine modes.  `str`/`strEsc` carry whether the string being read
is an object key. -/

inductive JMode where
  /-- expecting a value -/
  | value
  /-- just after an opening bracket: value or immediate close -/
  | arrStart
  /-- just after an opening brace: key or immediate close -/
  | objStart
  /-- a value just ended: separator, close, or end of input -/
  | afterVal
  /-- inside a string literal -/
  | str (key : Bool)
  /-- inside a string literal, after a backslash -/
  | strEsc (key : Bool)
  /-- inside a number literal -/
  | num
  /-- expecting an object key -/
  | key
  /-- expecting the colon after a key -/
  | colon
  /-- inside a `true`/`false`/`null` literal, with the rest pending -/
  | lit (rest : List Char)
deriving DecidableEq, Repr

/-- Machine state: mode plus the stack of open brackets. -/

structure JState where
  mode : JMode
  stack : List JFrame
deriving DecidableEq, Repr

/-- JSON insignificant whitespace. -/

def isJsonWs (c : Char) : Bool :=
  c == ' ' || c == '\n' || c == '\t' || c == '\r'

/-- Characters that may continue a number literal (permissive). -/

def isNumChar (c : Char) : Bool :=
  c.isDigit || c == '-' || c == '+' || c == '.' || c == 'e' || c == 'E'

/-- Transition on the first character of a value. -/

def jsonStartValue (c : Char) (st : List JFrame) : Option JState :=
  if c == '"' then some ⟨.str false, st⟩
  else if c.isDigit || c == '-' then some ⟨.num, st⟩
  else if c == '[' then some ⟨.arrStart, .arr :: st⟩
  else if c == '\x7b' then some ⟨.objStart, .obj :: st⟩
  else if c == 't' then some ⟨.lit ['r', 'u', 'e'], st⟩
  else if c == 'f' then some ⟨.lit ['a', 'l', 's', 'e'], st⟩
  else if c == 'n' then some ⟨.lit ['u', 'l', 'l'], st⟩
  else none

/-- Transition after a completed value: whitespace, a comma (next
element / member), or the matching close bracket. -/

def jsonAfterVal (c : Char) (st : List JFrame) : Option JState :=
  if isJsonWs c then some ⟨.afterVal, st⟩
  else
    match st with
    | .arr :: rest =>
        if c == ',' then some ⟨.value, .arr :: rest⟩
        else if c == ']' then some ⟨.afterVal, rest⟩
        else none
    | .obj :: rest =>
        if c == ',' then some ⟨.key, .obj :: rest⟩
        else if c == '\x7d' then some ⟨.afterVal, rest⟩
        else none
    | [] => none

/-- One transition of the machine. -/

def jsonStep (s : JState) (c : Char) : Option JState :=
  match s.mode with
  | .value => if isJsonWs c then some s else jsonStartValue c s.stack
  | .arrStart =>
      if isJsonWs c then some s
      else if c == ']' then
        match s.stack with
        | .arr :: rest => some ⟨.afterVal, rest⟩
        | _ => none
      else jsonStartValue c s.stack
  | .objStart =>
      if isJsonWs c then some s
      else if c == '\x7d' then
        match s.stack with
        | .obj :: rest => some ⟨.afterVal, rest⟩
        | _ => none
      else if c == '"' then some ⟨.str true, s.stack⟩
      else none
  | .afterVal => jsonAfterVal c s.stack
  | .str k =>
      if c == '"' then
        if k then some ⟨.colon, s.stack⟩ else some ⟨.afterVal, s.stack⟩
      else if c == '\\' then some ⟨.strEsc k, s.stack⟩
      else some ⟨.str k, s.stack⟩
  | .strEsc k => some ⟨.str k, s.stack⟩
  | .num => if isNumChar c then some s else jsonAfterVal c s.stack
  | .key =>
      if isJsonWs c then some s
      else if c == '"' then some ⟨.str true, s.stack⟩
      else none
  | .colon =>
      if isJsonWs c then some s
      else if c == ':' then some ⟨.value, s.stack⟩
      else none
  | .lit rest =>
      match rest with
      | [] => none
      | r :: rs =>
          if c == r then
            if rs.isEmpty then some ⟨.afterVal, s.stack⟩ else some ⟨.lit rs, s.stack⟩
          else none

/-- Run of the machine over a character list. -/

def jsonRunAux (s : JState) : List Char → Option JState
  | [] => some s
  | c :: cs =>
      match jsonStep s c with
      | some s' => jsonRunAux s' cs
      | none => none

/-- A full document is valid JSON when the machine, started expecting a
value with an empty stack, consumes it and ends with a completed value
and an empty stack (a trailing bare number also counts). -/

def validJsonChars (cs : List Char) : Bool :=
  match jsonRunAux ⟨.value, []⟩ cs with
  | some ⟨.afterVal, []⟩ => true
  | some ⟨.num, []⟩ => true
  | _ => false

def validJson (s : String) : Bool := validJsonChars s.data

/-- A serialized record is a self-delimited JSON value: read in an
array context (either as first element or a later one), it consumes
exactly itself and completes one value without disturbing the stack.
Every serde-serialized object satisfies this. -/

def selfDelimValue (r : String) : Prop :=
  jsonRunAux ⟨.value, [.arr]⟩ r.data = some ⟨.afterVal, [.arr]⟩
    ∧ jsonRunAux ⟨.arrStart, [.arr]⟩ r.data = some ⟨.afterVal, [.arr]⟩

instance (r : String) : Decidable (selfDelimValue r) := by
  unfold selfDelimValue; infer_instance

/-! ## Helper lemmas -/

/-- Separator-joined serialization of the records after the first:
each preceded by the comma-newline separator, at character level. -/

def sepChars (rs : List String) : List Char :=
  (rs.map (fun r => ',' :: '\n' :: r.data)).flatten

/-- Character-level content of the record region of a JSON output
file. -/

def jsonBodyChars : List String → List Char
  | [] => []
  | r :: rest => r.data ++ sepChars rest

/-- The match (if any) that one URL contributes in directory mode. -/

def dir_match_of (cfg : DirConfig) (env : DirEnv) (url : String) : Option DirMatch :=
  match env.check_url url with
  | .ok r =>
      if dir_show cfg r.status r.size then some ⟨url, r.status, r.size, r.redirect⟩
      else none
  | .error _ => none

/-- The match (if any) that one word contributes in DNS mode, given the
recorded wildcard-IP set. -/

def dns_match_of (cfg : DnsConfig) (env : DnsEnv) (wilds : List Ip)
    (word : String) : Option DnsMatch :=
  match env.resolve (dns_subdomain cfg word) with
  | .ok r =>
      if !(!wilds.isEmpty && r.ips.all (wilds.contains ·)) then
        some ⟨dns_subdomain cfg word, r.ips, r.cnames⟩
      else none
  | .error _ => none

/-- The match (if any) that one payload contributes in fuzz mode. -/

def fuzz_match_of (cfg : FuzzConfig) (env : FuzzEnv) (payload : String) :
    Option FuzzMatch :=
  match env.send (fuzz_request cfg payload) with
  | .ok (status, body) =>
      if fuzz_show cfg status body then some ⟨payload, status, body.length⟩ else none
  | .error _ => none

/-- Does one TFTP reply classify as an existing file? -/

def tftp_found_pred (env : TftpEnv) (f : String) : Bool :=
  match check_tftp_file (env.reply f) with
  | .ok true => true
  | _ => false

deriving instance DecidableEq for Except

/-! ## Claim fixtures (concrete configurations and environments) -/

/-- Directory fixture: one word, no extensions, wildcard probe answers
200 (interesting), quiet mode ON, force-continue OFF. -/

def dirCfgC1 : DirConfig :=
  { url := "http://t", wordlist := ["admin"], extensions := [],
    add_slash := false, valid_status_codes := [200], blacklist_codes := [],
    exclude_lengths := [], quiet := true, wildcard := false, verbose := false,
    discover_backup := false }

/-- Same fixture with quiet OFF. -/

def dirCfgC1q : DirConfig := { dirCfgC1 with quiet := false }

def dirEnvC1 : DirEnv :=
  { check_url := fun _ => .ok ⟨200, 5, none⟩,
    wildcard_probe := .ok ⟨200, 7, none⟩ }

/-- DNS fixture: wildcard detected, force-continue OFF, quiet OFF. -/

def dnsCfgC1 : DnsConfig :=
  { domain := "example.com", wordlist := ["www"], quiet := false,
    wildcard := false, verbose := false }

def dnsEnvC1 : DnsEnv :=
  { resolve := fun s =>
      if s = "www.example.com" then .ok ⟨["1.2.3.4"], []⟩ else .error "no records",
    detect_wildcard := some ["1.2.3.4"] }

/-! ## Claim theorems -/

/-- DNS fixture for C2: the single candidate's resolution fails. -/

def dnsCfgC2 : DnsConfig :=
  { domain := "example.com", wordlist := ["www"], quiet := false,
    wildcard := true, verbose := false }

def dnsEnvC2 : DnsEnv :=
  { resolve := fun _ => .error "connection timed out",
    detect_wildcard := none }

/-- Fuzz and TFTP fixtures for the C2 witness: single failing probe. -/

def fuzzCfgC2 : FuzzConfig :=
  { url := "http://t/FUZZ", headers := [], data := none, cookies := none,
    wordlist := ["admin"], exclude_status := [], exclude_lengths := [],
    filter_string := none, verbose := false }

def fuzzEnvC2 : FuzzEnv := { send := fun _ => .error "connection refused" }

def tftpCfgC2 : TftpConfig := { wordlist := ["passwd"], verbose := false }

def tftpEnvC2 : TftpEnv := { reply := fun _ => .sockErr "host unreachable" }

/-- Directory fixture for the C2 witness: one probe fails, one
succeeds. -/

def dirCfgC2 : DirConfig :=
  { url := "http://t", wordlist := ["a", "b"], extensions := [],
    add_slash := false, valid_status_codes := [200], blacklist_codes := [],
    exclude_lengths := [], quiet := false, wildcard := true, verbose := true,
    discover_backup := false }

def dirEnvC2 : DirEnv :=
  { check_url := fun u => if u = "http://t/a" then .ok ⟨200, 5, none⟩ else .error "timeout",
    wildcard_probe := .error "down" }

/-- Directory fixture for C3: one word, one extension, slash-append
requested; no wildcard interference. -/

def dirCfgC3 : DirConfig :=
  { url := "http://t", wordlist := ["admin"], extensions := ["php"],
    add_slash := true, valid_status_codes := [200], blacklist_codes := [],
    exclude_lengths := [], quiet := false, wildcard := true, verbose := false,
    discover_backup := false }

def dirEnvC3 : DirEnv :=
  { check_url := fun _ => .ok ⟨404, 5, none⟩,
    wildcard_probe := .error "unused" }

/-- TFTP fixture for C4: a `.json` output file is configured and the
single candidate is found (data opcode reply), so the filename is
routed through `write_line` into the JSON file. -/

def tftpCfgC4 : TftpConfig := { wordlist := ["admin"], verbose := false }

def tftpEnvC4 : TftpEnv := { reply := fun _ => .datagram [0, 3, 0, 1] }

/-- DNS fixture for C5: force-continue set; the zone is actually
wildcard-affected (detection would record `1.2.3.4`) and the real
candidate resolves exactly to that address. -/

def dnsCfgC5 : DnsConfig :=
  { domain := "example.com", wordlist := ["www"], quiet := false,
    wildcard := true, verbose := false }

def dnsEnvC5 : DnsEnv :=
  { resolve := fun s =>
      if s = "www.example.com" then .ok ⟨["1.2.3.4"], []⟩ else .error "no records",
    detect_wildcard := some ["1.2.3.4"] }

/-- C6 witness: with wildcard set `{1.2.3.4}` the candidate `www`
resolving only to `1.2.3.4` is suppressed, and `mail` resolving to
`5.6.7.8` is reported. -/

def dnsCfgC6 : DnsConfig :=
  { domain := "example.com", wordlist := ["www", "mail"], quiet := false,
    wildcard := false, verbose := false }

def dnsEnvC6 : DnsEnv :=
  { resolve := fun s =>
      if s = "www.example.com" then .ok ⟨["1.2.3.4"], []⟩
      else if s = "mail.example.com" then .ok ⟨["5.6.7.8"], []⟩
      else .error "no records",
    detect_wildcard := some ["1.2.3.4"] }

/-- Directory fixture for C7: scenario A of the spec — `/admin` and
`/login` answer 200, `/xyz123` answers 404, allow-set `{200}`. -/

def dirCfgC7 : DirConfig :=
  { url := "http://t", wordlist := ["admin", "login", "xyz123"], extensions := [],
    add_slash := false, valid_status_codes := [200], blacklist_codes := [],
    exclude_lengths := [], quiet := false, wildcard := true, verbose := false,
    discover_backup := false }

def dirEnvC7 : DirEnv :=
  { check_url := fun u =>
      if u = "http://t/admin" then .ok ⟨200, 17, none⟩
      else if u = "http://t/login" then .ok ⟨200, 31, none⟩
      else .ok ⟨404, 9, none⟩,
    wildcard_probe := .error "unused" }

/-- TFTP fixture for C8: every probe times out. -/

def tftpCfgC8 : TftpConfig := { wordlist := ["passwd", "config"], verbose := false }

def tftpEnvC8 : TftpEnv := { reply := fun _ => .timeout }

/-- Directory fixture for C10: backup discovery on, `/a` found, its
`.bak` variant answers 200, everything else 404. -/

def dirCfgC10 : DirConfig :=
  { url := "http://t", wordlist := ["a"], extensions := [],
    add_slash := false, valid_status_codes := [200], blacklist_codes := [],
    exclude_lengths := [], quiet := false, wildcard := true, verbose := false,
    discover_backup := true }

def dirEnvC10 : DirEnv :=
  { check_url := fun u =>
      if u = "http://t/a" then .ok ⟨200, 7, none⟩
      else if u = "http://t/a.bak" then .ok ⟨200, 3, none⟩
      else .ok ⟨404, 0, none⟩,
    wildcard_probe := .error "unused" }

/-! ## Theorems -/

theorem jsonRunAux_append (a b : List Char) (s : JState) :
    jsonRunAux s (a ++ b) =
      match jsonRunAux s a with
      | some s' => jsonRunAux s' b
      | none => none := by
  induction a generalizing s with
  | nil => rfl
  | cons c cs ih =>
      simp only [List.cons_append, jsonRunAux]
      cases jsonStep s c with
      | some s' => exact ih s'
      | none => rfl

theorem foldl_write_json_content (rs : List String) (s : FileWriterState)
    (h : s.first_entry = false) :
    (rs.foldl write_json s).content.data = s.content.data ++ sepChars rs := by
  induction rs generalizing s with
  | nil => simp [sepChars]
  | cons r rest ih =>
      simp only [List.foldl_cons]
      rw [ih (write_json s r) (by simp [write_json])]
      simp [write_json, h, sepChars, String.data_append]

theorem foldl_write_json_mode (rs : List String) (s : FileWriterState) :
    (rs.foldl write_json s).json_mode = s.json_mode := by
  induction rs generalizing s with
  | nil => rfl
  | cons r rest ih => simp only [List.foldl_cons]; rw [ih]; rfl

theorem json_file_content_data (rs : List String) :
    (json_file_content rs).data =
      '[' :: '\n' :: (jsonBodyChars rs ++ ['\n', ']', '\n']) := by
  cases rs with
  | nil => rfl
  | cons r rest =>
      unfold json_file_content
      simp only [List.foldl_cons]
      have hmode : ((r :: rest).foldl write_json (FileWriter_new true)).json_mode = true := by
        simp only [List.foldl_cons]
        rw [foldl_write_json_mode]
        rfl
      unfold finalize
      rw [List.foldl_cons] at hmode
      rw [hmode]
      simp only [if_true]
      rw [String.data_append]
      rw [foldl_write_json_content rest (write_json (FileWriter_new true) r) (by rfl)]
      simp [write_json, FileWriter_new, jsonBodyChars, String.data_append]

theorem foldl_write_line_content (ls : List String) (s : FileWriterState) :
    (ls.foldl write_line s).content.data =
      s.content.data ++ (ls.map (fun l => l.data ++ ['\n'])).flatten := by
  induction ls generalizing s with
  | nil => simp
  | cons l rest ih =>
      simp only [List.foldl_cons]
      rw [ih (write_line s l)]
      simp [write_line, String.data_append]

theorem foldl_write_line_mode (ls : List String) (s : FileWriterState) :
    (ls.foldl write_line s).json_mode = s.json_mode := by
  induction ls generalizing s with
  | nil => rfl
  | cons l rest ih => simp only [List.foldl_cons]; rw [ih]; rfl

/-- After the opening bracket and its newline, a record region built
from self-delimited values followed by the closing frame drives the
machine from the just-after-a-completed-value state to acceptance. -/
theorem jsonRun_sep_tail (rest : List String)
    (h : ∀ r ∈ rest, selfDelimValue r) :
    jsonRunAux ⟨.afterVal, [.arr]⟩ (sepChars rest ++ ['\n', ']', '\n']) =
      some ⟨.afterVal, []⟩ := by
  induction rest with
  | nil => rfl
  | cons r rest ih =>
      have hr := h r (List.mem_cons_self r rest)
      have hrest : ∀ x ∈ rest, selfDelimValue x := fun x hx => h x (List.mem_cons_of_mem r hx)
      show jsonRunAux ⟨.afterVal, [.arr]⟩
        ((',' :: '\n' :: r.data ++ sepChars rest) ++ ['\n', ']', '\n']) = _
      simp only [List.cons_append, List.append_assoc]
      show jsonRunAux ⟨.value, [.arr]⟩ ('\n' :: (r.data ++ (sepChars rest ++ ['\n', ']', '\n']))) = _
      show jsonRunAux ⟨.value, [.arr]⟩ (r.data ++ (sepChars rest ++ ['\n', ']', '\n'])) = _
      rw [jsonRunAux_append, hr.1]
      exact ih hrest

theorem validJson_json_file (rs : List String)
    (h : ∀ r ∈ rs, selfDelimValue r) :
    validJson (json_file_content rs) = true := by
  unfold validJson validJsonChars
  rw [json_file_content_data]
  cases rs with
  | nil => rfl
  | cons r rest =>
      have hr := h r (List.mem_cons_self r rest)
      have hrest : ∀ x ∈ rest, selfDelimValue x := fun x hx => h x (List.mem_cons_of_mem r hx)
      show (match jsonRunAux ⟨.arrStart, [.arr]⟩ ('\n' :: (jsonBodyChars (r :: rest) ++ ['\n', ']', '\n'])) with
            | some ⟨.afterVal, []⟩ => true
            | some ⟨.num, []⟩ => true
            | _ => false) = true
      show (match jsonRunAux ⟨.arrStart, [.arr]⟩ ((r.data ++ sepChars rest) ++ ['\n', ']', '\n']) with
            | some ⟨.afterVal, []⟩ => true
            | some ⟨.num, []⟩ => true
            | _ => false) = true
      rw [List.append_assoc, jsonRunAux_append, hr.2]
      show (match jsonRunAux ⟨.afterVal, [.arr]⟩ (sepChars rest ++ ['\n', ']', '\n']) with
            | some ⟨.afterVal, []⟩ => true
            | some ⟨.num, []⟩ => true
            | _ => false) = true
      rw [jsonRun_sep_tail rest hrest]

theorem dir_step_progress (cfg : DirConfig) (env : DirEnv) (s : DirState) (url : String) :
    (dir_step cfg env s url).progress =
      ⟨s.progress.done + 1,
       s.progress.found + (if (dir_match_of cfg env url).isSome then 1 else 0),
       s.progress.errored + (if isErr (env.check_url url) then 1 else 0)⟩ := by
  unfold dir_step dir_match_of
  cases h : env.check_url url with
  | ok r =>
      by_cases hs : dir_show cfg r.status r.size = true
      · simp [hs, isErr]
      · simp [hs, isErr]
  | error e => simp [isErr]

theorem dir_step_results (cfg : DirConfig) (env : DirEnv) (s : DirState) (url : String) :
    (dir_step cfg env s url).results = s.results ++ (dir_match_of cfg env url).toList := by
  unfold dir_step dir_match_of
  cases h : env.check_url url with
  | ok r =>
      by_cases hs : dir_show cfg r.status r.size = true
      · simp [hs]
      · simp [hs]
  | error e => simp

theorem dir_foldl_done (cfg : DirConfig) (env : DirEnv) (urls : List String)
    (s : DirState) :
    (urls.foldl (dir_step cfg env) s).progress.done = s.progress.done + urls.length := by
  induction urls generalizing s with
  | nil => simp
  | cons u rest ih =>
      simp only [List.foldl_cons, List.length_cons]
      rw [ih, dir_step_progress]
      dsimp only
      omega

theorem dir_foldl_errored (cfg : DirConfig) (env : DirEnv) (urls : List String)
    (s : DirState) :
    (urls.foldl (dir_step cfg env) s).progress.errored =
      s.progress.errored + urls.countP (fun u => isErr (env.check_url u)) := by
  induction urls generalizing s with
  | nil => simp
  | cons u rest ih =>
      simp only [List.foldl_cons, List.countP_cons]
      rw [ih, dir_step_progress]
      by_cases h : isErr (env.check_url u) = true <;> simp [h] <;> omega

theorem dir_foldl_found (cfg : DirConfig) (env : DirEnv) (urls : List String)
    (s : DirState) :
    (urls.foldl (dir_step cfg env) s).progress.found =
      s.progress.found + urls.countP (fun u => (dir_match_of cfg env u).isSome) := by
  induction urls generalizing s with
  | nil => simp
  | cons u rest ih =>
      simp only [List.foldl_cons, List.countP_cons]
      rw [ih, dir_step_progress]
      by_cases h : (dir_match_of cfg env u).isSome = true <;> simp [h] <;> omega

theorem dir_foldl_results (cfg : DirConfig) (env : DirEnv) (urls : List String)
    (s : DirState) :
    (urls.foldl (dir_step cfg env) s).results =
      s.results ++ urls.filterMap (dir_match_of cfg env) := by
  induction urls generalizing s with
  | nil => simp
  | cons u rest ih =>
      simp only [List.foldl_cons, List.filterMap_cons]
      rw [ih, dir_step_results]
      cases h : dir_match_of cfg env u <;> simp [h]

theorem dns_step_progress (cfg : DnsConfig) (env : DnsEnv) (wilds : List Ip)
    (s : DnsState) (word : String) :
    (dns_step cfg env wilds s word).progress =
      ⟨s.progress.done + 1,
       s.progress.found + (if (dns_match_of cfg env wilds word).isSome then 1 else 0),
       s.progress.errored⟩ := by
  unfold dns_step dns_match_of
  cases h : env.resolve (dns_subdomain cfg word) with
  | ok r =>
      by_cases hp : wilds = [] ∨ ∃ x ∈ r.ips, x ∉ wilds
      · simp [h, hp]
      · simp [h, hp]
  | error e => simp [h]

theorem dns_step_results (cfg : DnsConfig) (env : DnsEnv) (wilds : List Ip)
    (s : DnsState) (word : String) :
    (dns_step cfg env wilds s word).results =
      s.results ++ (dns_match_of cfg env wilds word).toList := by
  unfold dns_step dns_match_of
  cases h : env.resolve (dns_subdomain cfg word) with
  | ok r =>
      by_cases hp : wilds = [] ∨ ∃ x ∈ r.ips, x ∉ wilds
      · simp [h, hp]
      · simp [h, hp]
  | error e => simp [h]

theorem dns_foldl_done (cfg : DnsConfig) (env : DnsEnv) (wilds : List Ip)
    (ws : List String) (s : DnsState) :
    (ws.foldl (dns_step cfg env wilds) s).progress.done = s.progress.done + ws.length := by
  induction ws generalizing s with
  | nil => simp
  | cons w rest ih =>
      simp only [List.foldl_cons, List.length_cons]
      rw [ih, dns_step_progress]
      dsimp only
      omega

theorem dns_foldl_errored (cfg : DnsConfig) (env : DnsEnv) (wilds : List Ip)
    (ws : List String) (s : DnsState) :
    (ws.foldl (dns_step cfg env wilds) s).progress.errored = s.progress.errored := by
  induction ws generalizing s with
  | nil => rfl
  | cons w rest ih =>
      simp only [List.foldl_cons]
      rw [ih, dns_step_progress]

theorem dns_foldl_found (cfg : DnsConfig) (env : DnsEnv) (wilds : List Ip)
    (ws : List String) (s : DnsState) :
    (ws.foldl (dns_step cfg env wilds) s).progress.found =
      s.progress.found + ws.countP (fun w => (dns_match_of cfg env wilds w).isSome) := by
  induction ws generalizing s with
  | nil => simp
  | cons w rest ih =>
      simp only [List.foldl_cons, List.countP_cons]
      rw [ih, dns_step_progress]
      by_cases h : (dns_match_of cfg env wilds w).isSome = true <;> simp [h] <;> omega

theorem dns_foldl_results (cfg : DnsConfig) (env : DnsEnv) (wilds : List Ip)
    (ws : List String) (s : DnsState) :
    (ws.foldl (dns_step cfg env wilds) s).results =
      s.results ++ ws.filterMap (dns_match_of cfg env wilds) := by
  induction ws generalizing s with
  | nil => simp
  | cons w rest ih =>
      simp only [List.foldl_cons, List.filterMap_cons]
      rw [ih, dns_step_results]
      cases h : dns_match_of cfg env wilds w <;> simp [h]

theorem fuzz_step_progress (cfg : FuzzConfig) (env : FuzzEnv)
    (s : FuzzState) (payload : String) :
    (fuzz_step cfg env s payload).progress =
      ⟨s.progress.done + 1,
       s.progress.found + (if (fuzz_match_of cfg env payload).isSome then 1 else 0),
       s.progress.errored⟩ := by
  unfold fuzz_step fuzz_match_of
  cases h : env.send (fuzz_request cfg payload) with
  | ok sb =>
      by_cases hs : fuzz_show cfg sb.1 sb.2 = true
      · simp [h, hs]
      · simp [h, hs]
  | error e => simp [h]

theorem fuzz_foldl_done (cfg : FuzzConfig) (env : FuzzEnv)
    (ps : List String) (s : FuzzState) :
    (ps.foldl (fuzz_step cfg env) s).progress.done = s.progress.done + ps.length := by
  induction ps generalizing s with
  | nil => simp
  | cons p rest ih =>
      simp only [List.foldl_cons, List.length_cons]
      rw [ih, fuzz_step_progress]
      dsimp only
      omega

theorem fuzz_foldl_errored (cfg : FuzzConfig) (env : FuzzEnv)
    (ps : List String) (s : FuzzState) :
    (ps.foldl (fuzz_step cfg env) s).progress.errored = s.progress.errored := by
  induction ps generalizing s with
  | nil => rfl
  | cons p rest ih =>
      simp only [List.foldl_cons]
      rw [ih, fuzz_step_progress]

theorem tftp_step_spec (env : TftpEnv) (s : TftpState) (f : String) :
    (tftp_step env s f).progress =
        ⟨s.progress.done + 1,
         s.progress.found + (if tftp_found_pred env f then 1 else 0),
         s.progress.errored⟩
      ∧ (tftp_step env s f).sent = s.sent ++ [build_rrq_packet f]
      ∧ (tftp_step env s f).results =
          s.results ++ (if tftp_found_pred env f then [f] else []) := by
  unfold tftp_step tftp_found_pred
  cases h : check_tftp_file (env.reply f) with
  | ok b => cases b <;> simp [h]
  | error e => simp [h]

theorem tftp_foldl_done (env : TftpEnv) (fs : List String) (s : TftpState) :
    (fs.foldl (tftp_step env) s).progress.done = s.progress.done + fs.length := by
  induction fs generalizing s with
  | nil => simp
  | cons f rest ih =>
      simp only [List.foldl_cons, List.length_cons]
      rw [ih, (tftp_step_spec env s f).1]
      dsimp only
      omega

theorem tftp_foldl_errored (env : TftpEnv) (fs : List String) (s : TftpState) :
    (fs.foldl (tftp_step env) s).progress.errored = s.progress.errored := by
  induction fs generalizing s with
  | nil => rfl
  | cons f rest ih =>
      simp only [List.foldl_cons]
      rw [ih, (tftp_step_spec env s f).1]

theorem tftp_foldl_sent (env : TftpEnv) (fs : List String) (s : TftpState) :
    (fs.foldl (tftp_step env) s).sent = s.sent ++ fs.map build_rrq_packet := by
  induction fs generalizing s with
  | nil => simp
  | cons f rest ih =>
      simp only [List.foldl_cons, List.map_cons]
      rw [ih, (tftp_step_spec env s f).2.1]
      simp

theorem tftp_foldl_results (env : TftpEnv) (fs : List String) (s : TftpState) :
    (fs.foldl (tftp_step env) s).results =
      s.results ++ fs.filter (tftp_found_pred env) := by
  induction fs generalizing s with
  | nil => simp
  | cons f rest ih =>
      simp only [List.foldl_cons, List.filter_cons]
      rw [ih, (tftp_step_spec env s f).2.2]
      by_cases h : tftp_found_pred env f = true <;> simp [h]

/-- C1 counterexample.  The claim says a detected wildcard without the
force-continue flag always soft-stops with zero probes against real
candidates, regardless of quiet mode and in DNS mode alike.  In the
code: (a) directory mode with quiet ON continues and probes the one
real candidate (`done = 1`, not stopped); (b) DNS mode never stops at
all — with the wildcard detected and quiet OFF, the single real
candidate is still resolved (`done = 1`). -/
theorem C1_counterexample :
    dir_wildcard_hit dirCfgC1 dirEnvC1 = true
      ∧ dirCfgC1.wildcard = false
      ∧ (dir_run dirCfgC1 dirEnvC1).stopped = false
      ∧ (dir_run dirCfgC1 dirEnvC1).state.progress.done = 1
      ∧ dnsCfgC1.wildcard = false
      ∧ dnsEnvC1.detect_wildcard.isSome = true
      ∧ (dns_run dnsCfgC1 dnsEnvC1).state.progress.done = 1 := by
  decide

/-- C1 (amended): in directory mode a detected wildcard without
force-continue soft-stops (warning, zero probes, success exit) only
when quiet is off; with quiet on the run continues and probes every
candidate.  In DNS mode the run never stops: every candidate is
resolved regardless of wildcard detection, and the exit is success. -/
theorem C1_amended (cfg : DirConfig) (env : DirEnv)
    (dcfg : DnsConfig) (denv : DnsEnv) :
    (dir_wildcard_hit cfg env = true → cfg.quiet = false →
      (dir_run cfg env).stopped = true
        ∧ (dir_run cfg env).warned = true
        ∧ (dir_run cfg env).state.progress.done = 0
        ∧ (dir_run cfg env).state.results = []
        ∧ (dir_run cfg env).exit_ok = true)
    ∧ (dir_wildcard_hit cfg env = true → cfg.quiet = true →
        (dir_run cfg env).stopped = false
          ∧ (dir_run cfg env).state.progress.done =
              (urls_to_check (trim_end_slashes cfg.url) cfg.wordlist
                cfg.add_slash cfg.extensions).length)
    ∧ ((dns_run dcfg denv).state.progress.done = dcfg.wordlist.length
        ∧ (dns_run dcfg denv).exit_ok = true
        ∧ (dns_run dcfg denv).warned = (!dcfg.wildcard && denv.detect_wildcard.isSome)) := by
  refine ⟨fun hh hq => ?_, fun hh hq => ?_, ?_⟩
  · simp [dir_run, hh, hq]
  · constructor
    · simp [dir_run, hh, hq]
    · simp only [dir_run, hh, hq]
      simp [dir_foldl_done]
  · refine ⟨?_, rfl, rfl⟩
    simp only [dns_run]
    simp [dns_foldl_done]

/-- C1 witness: the amended statement applied to the fixtures. -/
theorem C1_witness :
    (dir_run dirCfgC1q dirEnvC1).stopped = true
      ∧ (dir_run dirCfgC1q dirEnvC1).state.progress.done = 0
      ∧ (dir_run dirCfgC1 dirEnvC1).stopped = false
      ∧ (dns_run dnsCfgC1 dnsEnvC1).state.progress.done = dnsCfgC1.wordlist.length := by
  have h := C1_amended dirCfgC1q dirEnvC1 dnsCfgC1 dnsEnvC1
  have h1 := h.1 (by decide) (by decide)
  have h2 := (C1_amended dirCfgC1 dirEnvC1 dnsCfgC1 dnsEnvC1).2.1 (by decide) (by decide)
  exact ⟨h1.1, h1.2.2.1, h2.1, h.2.2.1⟩

/-- C2 counterexample.  The claim says every probe-level failure, in
every mode, increments the errored counter exactly once.  In DNS mode
the error branch only echoes under verbose: with one candidate whose
resolution fails, the errored counter stays `0` (the claim requires
`1`). -/
theorem C2_counterexample :
    isErr (dnsEnvC2.resolve (dns_subdomain dnsCfgC2 "www")) = true
      ∧ (dns_run dnsCfgC2 dnsEnvC2).state.progress.done = 1
      ∧ (dns_run dnsCfgC2 dnsEnvC2).state.progress.errored = 0 := by
  decide

/-- C2 (amended): probe failures never abort any run — every candidate
still bumps `done` — but only directory mode counts them: its errored
counter equals the number of failing probes, while the DNS, fuzz and
TFTP error branches leave the errored counter untouched (it stays 0). -/
theorem C2_amended (cfg : DirConfig) (env : DirEnv)
    (dcfg : DnsConfig) (denv : DnsEnv)
    (fcfg : FuzzConfig) (fenv : FuzzEnv)
    (tcfg : TftpConfig) (tenv : TftpEnv) :
    ((dir_run cfg env).stopped = false →
      (dir_run cfg env).state.progress.errored =
          (urls_to_check (trim_end_slashes cfg.url) cfg.wordlist
            cfg.add_slash cfg.extensions).countP (fun u => isErr (env.check_url u))
        ∧ (dir_run cfg env).state.progress.done =
            (urls_to_check (trim_end_slashes cfg.url) cfg.wordlist
              cfg.add_slash cfg.extensions).length)
    ∧ ((dns_run dcfg denv).state.progress.errored = 0
        ∧ (dns_run dcfg denv).state.progress.done = dcfg.wordlist.length)
    ∧ ((fuzz_run fcfg fenv).state.progress.errored = 0
        ∧ (fuzz_config_ok fcfg = true →
            (fuzz_run fcfg fenv).state.progress.done = fcfg.wordlist.length))
    ∧ ((tftp_run tcfg tenv).state.progress.errored = 0
        ∧ (tftp_run tcfg tenv).state.progress.done = tcfg.wordlist.length) := by
  refine ⟨fun hs => ?_, ⟨?_, ?_⟩, ⟨?_, fun hok => ?_⟩, ?_, ?_⟩
  · unfold dir_run at hs ⊢
    by_cases hh : (dir_wildcard_hit cfg env && !cfg.quiet) = true
    · simp [hh] at hs
    · simp only [hh, Bool.false_eq_true, if_false] at hs ⊢
      simp [dir_foldl_errored, dir_foldl_done]
  · simp only [dns_run]
    simp [dns_foldl_errored]
  · simp only [dns_run]
    simp [dns_foldl_done]
  · unfold fuzz_run
    by_cases hok : fuzz_config_ok fcfg = true
    · simp only [hok, Bool.not_true, Bool.false_eq_true, if_false]
      simp [fuzz_foldl_errored]
    · simp only [Bool.not_eq_true] at hok
      simp [hok]
  · simp only [fuzz_run, hok, Bool.not_true, Bool.false_eq_true, if_false]
    simp [fuzz_foldl_done]
  · simp only [tftp_run]
    simp [tftp_foldl_errored]
  · simp only [tftp_run]
    simp [tftp_foldl_done]

/-- C2 witness: the amended statement at the fixtures — the directory
run counts its single failing probe, the other modes count none. -/
theorem C2_witness :
    (dir_run dirCfgC2 dirEnvC2).state.progress.errored = 1
      ∧ (dns_run dnsCfgC2 dnsEnvC2).state.progress.errored = 0
      ∧ (fuzz_run fuzzCfgC2 fuzzEnvC2).state.progress.errored = 0
      ∧ (tftp_run tftpCfgC2 tftpEnvC2).state.progress.errored = 0 := by
  have h := C2_amended dirCfgC2 dirEnvC2 dnsCfgC2 dnsEnvC2 fuzzCfgC2 fuzzEnvC2
    tftpCfgC2 tftpEnvC2
  refine ⟨?_, h.2.1.1, h.2.2.1.1, h.2.2.2.1⟩
  have h1 := (h.1 (by decide)).1
  rw [h1]
  decide

/-- C3.  With slash-append and a nonempty extension list the claim (and
the progress total computed by the code, `2·W·(E+1)`) says 4 candidates
for W = 1, E = 1, but the generator only emits the base path, its slash
variant and the extension variant — 3 candidates, so the progress total
does not match the number of candidates actually probed.  Without
slash-append the count `W·(E+1)` is correct.  The code contradicts its
own pre-computed total, which exists precisely to size the progress
bar. -/
theorem C3_total_mismatch :
    (urls_to_check "http://t" ["admin"] true ["php"])
        = ["http://t/admin", "http://t/admin/", "http://t/admin.php"]
      ∧ total_requests ["admin"] ["php"] true = 4
      ∧ (dir_run dirCfgC3 dirEnvC3).total = 4
      ∧ (dir_run dirCfgC3 dirEnvC3).state.progress.done = 3
      ∧ (urls_to_check "http://t" ["admin"] false ["php"]).length
          = total_requests ["admin"] ["php"] false
      ∧ total_requests ["admin"] ["php"] false = 2 := by
  decide

/-- C4 counterexample.  The claim says every mode produces a valid JSON
array with one element per match when the output file ends in `.json`.
TFTP mode calls `write_line(&filename)` unconditionally — never
`write_json` — so with one found file the finalized content is
`[\nadmin\n\n]\n`, which is not valid JSON at all. -/
theorem C4_counterexample :
    (tftp_run tftpCfgC4 tftpEnvC4).state.results = ["admin"]
      ∧ tftp_json_file_content ["admin"] = "[\nadmin\n\n]\n"
      ∧ validJson (tftp_json_file_content ["admin"]) = false := by
  decide

/-- C4 (amended): for every run whose matches are routed through
`write_json` (directory, DNS, vhost, fuzz and bucket modes do this;
TFTP does not) and for every number of matches including zero and one,
the finalized file is the opening bracket, the serialized records each
preceded by a comma except the first, and the closing bracket — and it
parses as a syntactically valid JSON document whose top-level array has
exactly one value slot per record, provided each serialized record is a
self-delimited JSON value (as every serde-serialized object is). -/
theorem C4_amended (records : List String)
    (h : ∀ r ∈ records, selfDelimValue r) :
    (json_file_content records).data =
        '[' :: '\n' :: (jsonBodyChars records ++ ['\n', ']', '\n'])
      ∧ validJson (json_file_content records) = true := by
  exact ⟨json_file_content_data records, validJson_json_file records h⟩

/-- C4 witness: the amended statement at zero records and at one
serde-style record. -/
theorem C4_witness :
    validJson (json_file_content []) = true
      ∧ validJson (json_file_content
          ["\x7b\n  \"path\": \"/admin\",\n  \"status\": 200,\n  \"size\": 1234,\n  \"redirect\": null\n\x7d"]) = true := by
  refine ⟨(C4_amended [] ?_).2, (C4_amended _ ?_).2⟩
  · intro r hr
    cases hr
  · intro r hr
    rw [List.mem_singleton] at hr
    subst hr
    decide

/-- C5 counterexample.  The claim says that when a baseline signature
is recorded and continuation was forced, signature-equal matches are
suppressed.  In the code, forcing continuation (`--wildcard`) skips
detection entirely: no signature is recorded and nothing is ever
suppressed — the candidate resolving exactly to the wildcard address is
reported. -/
theorem C5_counterexample :
    dnsCfgC5.wildcard = true
      ∧ dnsEnvC5.detect_wildcard = some ["1.2.3.4"]
      ∧ dnsEnvC5.resolve "www.example.com" = .ok ⟨["1.2.3.4"], []⟩
      ∧ (dns_run dnsCfgC5 dnsEnvC5).state.results
          = [⟨"www.example.com", ["1.2.3.4"], []⟩] := by
  decide

/-- C5 (amended): suppression happens only on the path where detection
actually ran — force-continue unset AND quiet unset — and then exactly
for successful resolutions whose whole address set lies inside the
recorded set.  When continuation is forced, detection is skipped, no
signature is recorded, and every successful resolution is reported. -/
theorem C5_amended :
    (∀ (cfg : DnsConfig) (env : DnsEnv),
        (dns_run cfg env).state.results =
          cfg.wordlist.filterMap (dns_match_of cfg env (dns_wildcard_ips cfg env)))
    ∧ (∀ (cfg : DnsConfig) (env : DnsEnv) (ws : List Ip) (w : String) (r : DnsResolved),
        cfg.wildcard = false → cfg.quiet = false →
        env.detect_wildcard = some ws → ws ≠ [] →
        env.resolve (dns_subdomain cfg w) = .ok r →
        (∀ ip ∈ r.ips, ip ∈ ws) →
        dns_match_of cfg env (dns_wildcard_ips cfg env) w = none)
    ∧ (∀ (cfg : DnsConfig) (env : DnsEnv) (w : String) (r : DnsResolved),
        cfg.wildcard = true →
        env.resolve (dns_subdomain cfg w) = .ok r →
        dns_match_of cfg env (dns_wildcard_ips cfg env) w =
          some ⟨dns_subdomain cfg w, r.ips, r.cnames⟩) := by
  refine ⟨fun cfg env => ?_, fun cfg env ws w r hf hq hd hne hres hsub => ?_,
    fun cfg env w r hf hres => ?_⟩
  · simp only [dns_run]
    rw [dns_foldl_results]
    rfl
  · have hwild : dns_wildcard_ips cfg env = ws := by
      simp [dns_wildcard_ips, hf, hq, hd]
    rw [hwild]
    have hcond : ¬(ws = [] ∨ ∃ x ∈ r.ips, x ∉ ws) := by
      push_neg
      exact ⟨hne, hsub⟩
    simp [dns_match_of, hres, hcond]
  · have hwild : dns_wildcard_ips cfg env = [] := by
      simp [dns_wildcard_ips, hf]
    rw [hwild]
    simp [dns_match_of, hres]

/-- C5 witness: the amended statement at concrete fixtures (quiet off,
force off, detection recording `1.2.3.4`, candidate resolving to it). -/
theorem C5_witness :
    dns_match_of dnsCfgC1 dnsEnvC1 (dns_wildcard_ips dnsCfgC1 dnsEnvC1) "www" = none
      ∧ dns_match_of dnsCfgC5 dnsEnvC5 (dns_wildcard_ips dnsCfgC5 dnsEnvC5) "www" =
          some ⟨"www.example.com", ["1.2.3.4"], []⟩
      ∧ (dns_run dnsCfgC5 dnsEnvC5).state.results =
          dnsCfgC5.wordlist.filterMap
            (dns_match_of dnsCfgC5 dnsEnvC5 (dns_wildcard_ips dnsCfgC5 dnsEnvC5)) := by
  refine ⟨?_, ?_, C5_amended.1 dnsCfgC5 dnsEnvC5⟩
  · exact C5_amended.2.1 dnsCfgC1 dnsEnvC1 ["1.2.3.4"] "www" ⟨["1.2.3.4"], []⟩
      (by decide) (by decide) (by decide) (by decide) (by decide) (by decide)
  · exact C5_amended.2.2 dnsCfgC5 dnsEnvC5 "www" ⟨["1.2.3.4"], []⟩
      (by decide) (by decide)

/-- C6.  In DNS mode, once a (nonempty) wildcard address set has been
recorded and the run continues — force-continue unset, quiet unset,
detection fired — a successfully resolved candidate appears among the
reported subdomains iff its resolved address set is not contained in
the wildcard set.  In particular a candidate resolving only to wildcard
addresses is suppressed and one resolving to any other address is
reported. -/
theorem C6_subset_iff (cfg : DnsConfig) (env : DnsEnv) (ws : List Ip)
    (w : String) (r : DnsResolved)
    (hf : cfg.wildcard = false) (hq : cfg.quiet = false)
    (hd : env.detect_wildcard = some ws) (hne : ws ≠ [])
    (hw : w ∈ cfg.wordlist)
    (hres : env.resolve (dns_subdomain cfg w) = .ok r) :
    dns_subdomain cfg w ∈ (dns_run cfg env).state.results.map DnsMatch.subdomain
      ↔ ¬(∀ ip ∈ r.ips, ip ∈ ws) := by
  have hwild : dns_wildcard_ips cfg env = ws := by
    simp [dns_wildcard_ips, hf, hq, hd]
  have hresults : (dns_run cfg env).state.results =
      cfg.wordlist.filterMap (dns_match_of cfg env ws) := by
    simp only [dns_run]
    rw [dns_foldl_results, hwild]
    rfl
  have hemp : ws.isEmpty = false := by
    cases ws with
    | nil => exact absurd rfl hne
    | cons a l => rfl
  constructor
  · intro hmem
    rw [hresults, List.mem_map] at hmem
    obtain ⟨m, hm, hsubm⟩ := hmem
    rw [List.mem_filterMap] at hm
    obtain ⟨w', hw', hmo⟩ := hm
    unfold dns_match_of at hmo
    cases h' : env.resolve (dns_subdomain cfg w') with
    | error e => rw [h'] at hmo; exact absurd hmo (by simp)
    | ok r' =>
        rw [h'] at hmo
        dsimp only at hmo
        split at hmo
        · next hcond =>
            rw [Option.some_inj] at hmo
            subst hmo
            have hsgoal : dns_subdomain cfg w' = dns_subdomain cfg w := hsubm
            rw [hsgoal, hres] at h'
            rw [Except.ok.injEq] at h'
            subst h'
            have hall : r.ips.all (ws.contains ·) = false := by
              cases hall : r.ips.all (ws.contains ·) with
              | false => rfl
              | true => rw [hemp, hall] at hcond; exact absurd hcond (by decide)
            intro hforall
            have : r.ips.all (ws.contains ·) = true := by
              rw [List.all_eq_true]
              intro ip hip
              exact List.elem_eq_true_of_mem (hforall ip hip)
            rw [this] at hall
            exact absurd hall (by decide)
        · next hcond => exact absurd hmo (by simp)
  · intro hnot
    have hall : r.ips.all (ws.contains ·) = false := by
      cases hall : r.ips.all (ws.contains ·) with
      | false => rfl
      | true =>
          exfalso
          apply hnot
          intro ip hip
          have := (List.all_eq_true).1 hall ip hip
          exact List.elem_iff.1 this
    have hcond : (!(!ws.isEmpty && r.ips.all (ws.contains ·))) = true := by
      rw [hemp, hall]
      rfl
    have hsome : dns_match_of cfg env ws w = some ⟨dns_subdomain cfg w, r.ips, r.cnames⟩ := by
      unfold dns_match_of
      rw [hres]
      dsimp only
      rw [if_pos hcond]
    rw [hresults, List.mem_map]
    exact ⟨⟨dns_subdomain cfg w, r.ips, r.cnames⟩,
      List.mem_filterMap.mpr ⟨w, hw, hsome⟩, rfl⟩

theorem C6_witness :
    ("www.example.com" ∈ (dns_run dnsCfgC6 dnsEnvC6).state.results.map DnsMatch.subdomain
        ↔ ¬(∀ ip ∈ ["1.2.3.4"], ip ∈ (["1.2.3.4"] : List Ip)))
      ∧ ("mail.example.com" ∈ (dns_run dnsCfgC6 dnsEnvC6).state.results.map DnsMatch.subdomain
          ↔ ¬(∀ ip ∈ ["5.6.7.8"], ip ∈ (["1.2.3.4"] : List Ip))) := by
  constructor
  · exact C6_subset_iff dnsCfgC6 dnsEnvC6 ["1.2.3.4"] "www" ⟨["1.2.3.4"], []⟩
      (by decide) (by decide) (by decide) (by decide) (by decide) (by decide)
  · exact C6_subset_iff dnsCfgC6 dnsEnvC6 ["1.2.3.4"] "mail" ⟨["5.6.7.8"], []⟩
      (by decide) (by decide) (by decide) (by decide) (by decide) (by decide)

theorem dir_run_stopped_iff (cfg : DirConfig) (env : DirEnv) :
    (dir_run cfg env).stopped = (dir_wildcard_hit cfg env && !cfg.quiet) := by
  unfold dir_run
  by_cases h : (dir_wildcard_hit cfg env && !cfg.quiet) = true <;> simp [h]

theorem dir_run_state_eq (cfg : DirConfig) (env : DirEnv)
    (h : (dir_wildcard_hit cfg env && !cfg.quiet) = false) :
    (dir_run cfg env).state =
      (urls_to_check (trim_end_slashes cfg.url) cfg.wordlist
        cfg.add_slash cfg.extensions).foldl (dir_step cfg env) {} := by
  simp [dir_run, h]

/-- C7.  In directory mode (when the main pass runs), a probe that
yields a Success outcome is reported iff its status is in the
allow-set, not in the deny-set, and its size is not excluded; and the
errored counter counts exactly the failing probes, so filtered
responses are dropped without touching it. -/
theorem C7_filter (cfg : DirConfig) (env : DirEnv)
    (hs : (dir_run cfg env).stopped = false) :
    (∀ u ∈ urls_to_check (trim_end_slashes cfg.url) cfg.wordlist
        cfg.add_slash cfg.extensions,
      ∀ r : HttpResp, env.check_url u = .ok r →
        (u ∈ (dir_run cfg env).state.results.map DirMatch.url
          ↔ dir_show cfg r.status r.size = true))
    ∧ (dir_run cfg env).state.progress.errored =
        (urls_to_check (trim_end_slashes cfg.url) cfg.wordlist
          cfg.add_slash cfg.extensions).countP (fun u => isErr (env.check_url u)) := by
  rw [dir_run_stopped_iff] at hs
  have hstate := dir_run_state_eq cfg env hs
  constructor
  · intro u hu r hr
    rw [hstate, dir_foldl_results]
    constructor
    · intro hmem
      rw [List.mem_map] at hmem
      obtain ⟨m, hm, hurl⟩ := hmem
      rw [List.nil_append, List.mem_filterMap] at hm
      obtain ⟨u', hu', hmo⟩ := hm
      unfold dir_match_of at hmo
      cases h' : env.check_url u' with
      | error e => rw [h'] at hmo; exact absurd hmo (by simp)
      | ok r' =>
          rw [h'] at hmo
          dsimp only at hmo
          split at hmo
          · next hshow =>
              rw [Option.some_inj] at hmo
              subst hmo
              have : u' = u := hurl
              subst this
              rw [hr] at h'
              rw [Except.ok.injEq] at h'
              subst h'
              exact hshow
          · next => exact absurd hmo (by simp)
    · intro hshow
      rw [List.mem_map]
      refine ⟨⟨u, r.status, r.size, r.redirect⟩, ?_, rfl⟩
      rw [List.nil_append, List.mem_filterMap]
      refine ⟨u, hu, ?_⟩
      unfold dir_match_of
      rw [hr]
      dsimp only
      rw [if_pos hshow]
  · rw [hstate, dir_foldl_errored]
    simp

/-- C7 witness: in scenario A the 200s are reported, the 404 is
dropped, and nothing is counted as an error. -/
theorem C7_witness :
    ("http://t/admin" ∈ (dir_run dirCfgC7 dirEnvC7).state.results.map DirMatch.url
        ↔ dir_show dirCfgC7 200 17 = true)
      ∧ ("http://t/xyz123" ∈ (dir_run dirCfgC7 dirEnvC7).state.results.map DirMatch.url
          ↔ dir_show dirCfgC7 404 9 = true)
      ∧ (dir_run dirCfgC7 dirEnvC7).state.progress.errored = 0 := by
  have h := C7_filter dirCfgC7 dirEnvC7 (by decide)
  refine ⟨h.1 "http://t/admin" (by decide) ⟨200, 17, none⟩ (by decide),
    h.1 "http://t/xyz123" (by decide) ⟨404, 9, none⟩ (by decide), ?_⟩
  rw [h.2]
  decide

/-- C8.  In TFTP mode exactly one read-request datagram is built and
sent per candidate filename; a datagram reply of length ≥ 4 classifies
as "exists" iff its opcode byte is data (3) or option-ack (6), an error
opcode (5) classifies as absent, and a timeout classifies as absent —
in a run where every probe times out, the errored counter stays 0,
nothing is reported, and every candidate is still processed. -/
theorem C8_tftp (cfg : TftpConfig) (env : TftpEnv) :
    (tftp_run cfg env).state.sent = cfg.wordlist.map build_rrq_packet
      ∧ (∀ buf : List Nat, 4 ≤ buf.length →
          (check_tftp_file (.datagram buf) = .ok true
            ↔ (buf.getD 1 0 = TFTP_DATA ∨ buf.getD 1 0 = TFTP_OACK)))
      ∧ (∀ buf : List Nat, 4 ≤ buf.length → buf.getD 1 0 = TFTP_ERROR →
          check_tftp_file (.datagram buf) = .ok false)
      ∧ check_tftp_file .timeout = .ok false
      ∧ ((∀ f ∈ cfg.wordlist, env.reply f = .timeout) →
          (tftp_run cfg env).state.progress.errored = 0
            ∧ (tftp_run cfg env).state.results = []
            ∧ (tftp_run cfg env).state.progress.done = cfg.wordlist.length) := by
  refine ⟨?_, ?_, ?_, rfl, fun htime => ⟨?_, ?_, ?_⟩⟩
  · simp only [tftp_run]
    rw [tftp_foldl_sent]
    simp
  · intro buf h4
    unfold check_tftp_file
    dsimp only
    rw [if_pos h4]
    by_cases h3 : buf.getD 1 0 = TFTP_DATA <;>
      by_cases h6 : buf.getD 1 0 = TFTP_OACK <;>
        (simp only [List.getD_eq_getElem?_getD] at h3 h6; simp [h3, h6])
  · intro buf h4 h5
    unfold check_tftp_file
    dsimp only
    rw [if_pos h4]
    rw [h5]
    simp [TFTP_ERROR, TFTP_DATA, TFTP_OACK]
  · simp only [tftp_run]
    rw [tftp_foldl_errored]
  · simp only [tftp_run]
    rw [tftp_foldl_results]
    simp only [List.nil_append]
    rw [List.filter_eq_nil_iff]
    intro f hf
    simp [tftp_found_pred, htime f hf, check_tftp_file]
  · simp only [tftp_run]
    rw [tftp_foldl_done]
    simp

/-- C8 witness: the statement at the all-timeout fixture and at
concrete datagrams. -/
theorem C8_witness :
    (tftp_run tftpCfgC8 tftpEnvC8).state.sent =
        [build_rrq_packet "passwd", build_rrq_packet "config"]
      ∧ (check_tftp_file (.datagram [0, 3, 0, 1]) = .ok true
          ↔ ([0, 3, 0, 1].getD 1 0 = TFTP_DATA ∨ [0, 3, 0, 1].getD 1 0 = TFTP_OACK))
      ∧ check_tftp_file (.datagram [0, 5, 0, 1]) = .ok false
      ∧ (tftp_run tftpCfgC8 tftpEnvC8).state.progress.errored = 0
      ∧ (tftp_run tftpCfgC8 tftpEnvC8).state.results = [] := by
  have h := C8_tftp tftpCfgC8 tftpEnvC8
  have ht := h.2.2.2.2 (by decide)
  exact ⟨h.1, h.2.1 [0, 3, 0, 1] (by decide),
    h.2.2.1 [0, 5, 0, 1] (by decide) (by decide), ht.1, ht.2.1⟩

theorem mem_backup_prints (cfg : DirConfig) (env : DirEnv)
    (fus : List String) (m : DirMatch) :
    m ∈ backup_prints cfg env fus ↔
      ∃ fu ∈ fus, ∃ ext ∈ BACKUP_EXTENSIONS,
        m.url = fu ++ ext
          ∧ env.check_url (fu ++ ext) = .ok ⟨m.status, m.size, m.redirect⟩
          ∧ cfg.valid_status_codes.contains m.status = true := by
  unfold backup_prints
  rw [List.mem_flatMap]
  constructor
  · rintro ⟨fu, hfu, hm⟩
    rw [List.mem_filterMap] at hm
    obtain ⟨ext, hext, hmo⟩ := hm
    dsimp only at hmo
    refine ⟨fu, hfu, ext, hext, ?_⟩
    cases h' : env.check_url (fu ++ ext) with
    | error e => rw [h'] at hmo; exact absurd hmo (by simp)
    | ok r =>
        rw [h'] at hmo
        dsimp only at hmo
        split at hmo
        · next hc =>
            rw [Option.some_inj] at hmo
            subst hmo
            exact ⟨rfl, rfl, hc⟩
        · next => exact absurd hmo (by simp)
  · rintro ⟨fu, hfu, ext, hext, hurl, hchk, hc⟩
    refine ⟨fu, hfu, ?_⟩
    rw [List.mem_filterMap]
    refine ⟨ext, hext, ?_⟩
    dsimp only
    rw [hchk]
    dsimp only
    rw [if_pos hc]
    obtain ⟨murl, mst, msz, mrd⟩ := m
    dsimp only at hurl
    rw [hurl]

/-- C10.  The backup-discovery pass runs after the main pass and only
prints to the console: turning it on changes neither the progress
counters nor the recorded (file-written) results, and a backup variant
is among the printed extras iff its probe succeeded with a status in
the allow-set (the deny-set and size exclusions are not consulted,
and probe errors are silently dropped). -/
theorem C10_backup (cfg : DirConfig) (env : DirEnv)
    (hb : cfg.discover_backup = true) :
    ((dir_run cfg env).state = (dir_run { cfg with discover_backup := false } env).state)
      ∧ ((dir_run { cfg with discover_backup := false } env).backup_printed = [])
      ∧ ((dir_run cfg env).stopped = false →
          ∀ m : DirMatch,
            m ∈ (dir_run cfg env).backup_printed ↔
              ∃ fu ∈ (dir_run cfg env).state.results.map DirMatch.url,
                ∃ ext ∈ BACKUP_EXTENSIONS,
                  m.url = fu ++ ext
                    ∧ env.check_url (fu ++ ext) = .ok ⟨m.status, m.size, m.redirect⟩
                    ∧ cfg.valid_status_codes.contains m.status = true) := by
  have hsame : ∀ b : Bool, dir_wildcard_hit { cfg with discover_backup := b } env
      = dir_wildcard_hit cfg env := fun b => rfl
  refine ⟨?_, ?_, fun hs m => ?_⟩
  · by_cases h : (dir_wildcard_hit cfg env && !cfg.quiet) = true
    · simp [dir_run, h, hsame]
    · rw [Bool.not_eq_true] at h
      rw [dir_run_state_eq cfg env h,
        dir_run_state_eq { cfg with discover_backup := false } env h]
      rfl
  · by_cases h : (dir_wildcard_hit cfg env && !cfg.quiet) = true
    · simp [dir_run, h, hsame]
    · rw [Bool.not_eq_true] at h
      simp [dir_run, h, hsame]
  · rw [dir_run_stopped_iff] at hs
    have hbp : (dir_run cfg env).backup_printed =
        backup_prints cfg env ((dir_run cfg env).state.results.map DirMatch.url) := by
      rw [dir_run_state_eq cfg env hs]
      simp [dir_run, hs, hb]
    rw [hbp, mem_backup_prints]

/-- C10 witness: the statement at the fixture — counters/results agree
with the no-backup run, and the 200-answering `.bak` variant is among
the printed extras. -/
theorem C10_witness :
    (dir_run dirCfgC10 dirEnvC10).state =
        (dir_run { dirCfgC10 with discover_backup := false } dirEnvC10).state
      ∧ (⟨"http://t/a.bak", 200, 3, none⟩ : DirMatch)
          ∈ (dir_run dirCfgC10 dirEnvC10).backup_printed := by
  have h := C10_backup dirCfgC10 dirEnvC10 rfl
  refine ⟨h.1, ?_⟩
  exact (h.2.2 (by decide) ⟨"http://t/a.bak", 200, 3, none⟩).mpr
    ⟨"http://t/a", by decide, ".bak", by decide, by decide, by decide, by decide⟩
